import Mathlib

/-!
Verification of the envelope-encryption core of the MediRust repository
(src/medirust/src/crypto.rs and the crypto workflow of src/medirust/src/handlers.rs).

Byte sequences are modelled as `List Nat` with values < 256 where it matters.
The external crates (aes_gcm, rsa, pkcs1) are modelled as abstract schemes
(`AeadScheme`, `RsaScheme`) whose documented contracts become explicit
hypotheses (`AeadContract`, `RsaContract`); everything the repository itself
does (length validation, error mapping, base64 codec, orchestration order)
is embedded concretely.

Randomness (`OsRng`) is modelled as an explicit byte stream `Nat → Nat`
passed to each operation that draws random bytes.
-/

/-- Error kinds, one per distinct `anyhow!` message produced in crypto.rs,
plus the IPFS collaborator failure surfaced by handlers.rs. -/
inductive CryptoError where
  | invalidAesKeySize
  | invalidNonceSize
  | aesDecryptFailure
  | rsaWrapFailure
  | rsaUnwrapFailure
  | base64DecodeFailure
  | pemExportFailure
  | pemImportFailure
  | ipfsFailure
  deriving DecidableEq, Repr

/-- Abstract model of the aes_gcm crate's AES-256-GCM cipher:
`enc key nonce plaintext` is the ciphertext-with-tag, `dec key nonce ciphertext`
is `some plaintext` when the embedded tag verifies and `none` otherwise.
`enc` is total because the crate's in-memory encrypt cannot fail for a
correctly sized key and nonce. -/
structure AeadScheme where
  enc : List Nat → List Nat → List Nat → List Nat
  dec : List Nat → List Nat → List Nat → Option (List Nat)

/-- Flip bit `j` of the byte at position `i`. -/
def flipBit (i j : Nat) : List Nat → List Nat
  | [] => []
  | b :: bs =>
    match i with
    | 0 => Nat.xor b (2 ^ j) :: bs
    | i' + 1 => b :: flipBit i' j bs

/-- Documented contract of AES-256-GCM as used by crypto.rs: decryption
inverts encryption for a 32-byte key and 12-byte nonce, decryption succeeds
only on genuinely produced ciphertexts, and flipping any single bit of a
ciphertext makes the tag check fail. -/
structure AeadContract (A : AeadScheme) : Prop where
  roundtrip : ∀ k n p, k.length = 32 → n.length = 12 → A.dec k n (A.enc k n p) = some p
  auth : ∀ k n c p, A.dec k n c = some p → A.enc k n p = c
  tamper : ∀ k n p i j, i < (A.enc k n p).length →
    A.dec k n (flipBit i j (A.enc k n p)) = none

/-- Abstract model of the rsa and pkcs1 crates: key generation from a random
stream, PKCS1v15 wrapping (randomized, may fail), unwrapping (fails on
padding/key mismatch), and PEM import/export of key material. -/
structure RsaScheme (Pub Priv : Type) where
  keygen : (Nat → Nat) → Priv × Pub
  pairOf : Priv → Pub
  wrap : (Nat → Nat) → Pub → List Nat → Option (List Nat)
  unwrap : Priv → List Nat → Option (List Nat)
  exportPubPem : Pub → Option (List Nat)
  importPubPem : List Nat → Option Pub
  exportPrivPem : Priv → Option (List Nat)
  importPrivPem : List Nat → Option Priv

/-- Documented contract of the rsa/pkcs1 crates for 2048-bit keys: a
generated pair matches, unwrap inverts wrap under the matching private key
(payloads up to the 245-byte PKCS1v15 capacity), wrapping a small payload
succeeds and produces bytes, unwrapping under a non-matching private key
fails, and PEM import inverts PEM export. -/
structure RsaContract {Pub Priv : Type} (R : RsaScheme Pub Priv) : Prop where
  keygen_pair : ∀ rng, R.pairOf (R.keygen rng).1 = (R.keygen rng).2
  wrap_some : ∀ rng pub p, p.length ≤ 245 → (R.wrap rng pub p).isSome
  unwrap_wrap : ∀ rng priv p w, p.length ≤ 245 →
    R.wrap rng (R.pairOf priv) p = some w → R.unwrap priv w = some p
  wrap_bytes_lt : ∀ rng pub p w, (∀ b ∈ p, b < 256) →
    R.wrap rng pub p = some w → ∀ b ∈ w, b < 256
  unwrap_wrong : ∀ rng priv pub p w, R.pairOf priv ≠ pub →
    R.wrap rng pub p = some w → R.unwrap priv w = none
  pem_pub : ∀ pub s, R.exportPubPem pub = some s → R.importPubPem s = some pub
  pem_priv : ∀ priv s, R.exportPrivPem priv = some s → R.importPrivPem s = some priv

/-! ## Base64 codec (the base64 crate's STANDARD engine, as used by crypto.rs)

Strings are modelled as lists of their ASCII codes; 61 is the code of the
padding character. Decoding mirrors the STANDARD engine: canonical padding
required, stray characters and nonzero trailing bits rejected. -/

/-- Map a sextet (0..63) to the ASCII code of its standard-alphabet character. -/
def sextetToAscii (n : Nat) : Nat :=
  if n < 26 then 65 + n
  else if n < 52 then 71 + n
  else if n < 62 then n - 4
  else if n = 62 then 43
  else 47

/-- Inverse alphabet lookup: ASCII code back to sextet, `none` off-alphabet. -/
def asciiToSextet (a : Nat) : Option Nat :=
  if 65 ≤ a ∧ a ≤ 90 then some (a - 65)
  else if 97 ≤ a ∧ a ≤ 122 then some (a - 71)
  else if 48 ≤ a ∧ a ≤ 57 then some (a + 4)
  else if a = 43 then some 62
  else if a = 47 then some 63
  else none

/-- Standard base64 encoding of a byte list, producing ASCII codes. -/
def b64EncodeBytes : List Nat → List Nat
  | [] => []
  | [a] => [sextetToAscii (a / 4), sextetToAscii (a % 4 * 16), 61, 61]
  | [a, b] => [sextetToAscii (a / 4), sextetToAscii (a % 4 * 16 + b / 16),
      sextetToAscii (b % 16 * 4), 61]
  | a :: b :: c :: rest =>
      sextetToAscii (a / 4) :: sextetToAscii (a % 4 * 16 + b / 16) ::
      sextetToAscii (b % 16 * 4 + c / 64) :: sextetToAscii (c % 64) ::
      b64EncodeBytes rest

/-- Standard base64 decoding of a list of ASCII codes; canonical padding and
zero trailing bits required, as in the base64 crate's STANDARD engine. -/
def b64DecodeAscii : List Nat → Option (List Nat)
  | [] => some []
  | c0 :: c1 :: c2 :: c3 :: rest =>
    if c2 = 61 then
      (if c3 = 61 ∧ rest = [] then
        match asciiToSextet c0, asciiToSextet c1 with
        | some i0, some i1 =>
            if i1 % 16 = 0 then some [i0 * 4 + i1 / 16] else none
        | _, _ => none
      else none)
    else if c3 = 61 then
      (if rest = [] then
        match asciiToSextet c0, asciiToSextet c1, asciiToSextet c2 with
        | some i0, some i1, some i2 =>
            if i2 % 4 = 0 then
              some [i0 * 4 + i1 / 16, i1 % 16 * 16 + i2 / 4]
            else none
        | _, _, _ => none
      else none)
    else
      match asciiToSextet c0, asciiToSextet c1, asciiToSextet c2,
          asciiToSextet c3, b64DecodeAscii rest with
      | some i0, some i1, some i2, some i3, some tl =>
          some ((i0 * 4 + i1 / 16) :: (i1 % 16 * 16 + i2 / 4) ::
            (i2 % 4 * 64 + i3) :: tl)
      | _, _, _, _, _ => none
  | _ => none

theorem asciiToSextet_sextetToAscii (n : Nat) (h : n < 64) :
    asciiToSextet (sextetToAscii n) = some n := by
  unfold sextetToAscii asciiToSextet
  split_ifs <;> simp_all <;> omega

theorem sextetToAscii_ne_61 (n : Nat) : sextetToAscii n ≠ 61 := by
  unfold sextetToAscii
  split_ifs <;> omega

theorem b64_roundtrip : ∀ bs : List Nat, (∀ b ∈ bs, b < 256) →
    b64DecodeAscii (b64EncodeBytes bs) = some bs := by
  intro bs
  induction bs using b64EncodeBytes.induct with
  | case1 => intro _; rfl
  | case2 a =>
    intro hb
    have ha : a < 256 := hb a (by simp)
    have h0 := asciiToSextet_sextetToAscii (a / 4) (by omega)
    have h1 := asciiToSextet_sextetToAscii (a % 4 * 16) (by omega)
    simp [b64EncodeBytes, b64DecodeAscii, h0, h1, Nat.mul_mod_left]
    all_goals omega
  | case3 a b =>
    intro hb
    have ha : a < 256 := hb a (by simp)
    have hb2 : b < 256 := hb b (by simp)
    have h0 := asciiToSextet_sextetToAscii (a / 4) (by omega)
    have h1 := asciiToSextet_sextetToAscii (a % 4 * 16 + b / 16) (by omega)
    have h2 := asciiToSextet_sextetToAscii (b % 16 * 4) (by omega)
    simp [b64EncodeBytes, b64DecodeAscii, sextetToAscii_ne_61, h0, h1, h2,
      Nat.mul_mod_left]
    all_goals omega
  | case4 a b c rest ih =>
    intro hb
    have ha : a < 256 := hb a (by simp)
    have hb2 : b < 256 := hb b (by simp)
    have hc : c < 256 := hb c (by simp)
    have h0 := asciiToSextet_sextetToAscii (a / 4) (by omega)
    have h1 := asciiToSextet_sextetToAscii (a % 4 * 16 + b / 16) (by omega)
    have h2 := asciiToSextet_sextetToAscii (b % 16 * 4 + c / 64) (by omega)
    have h3 := asciiToSextet_sextetToAscii (c % 64) (by omega)
    have htl := ih (fun x hx => hb x (by simp [hx]))
    simp [b64EncodeBytes, b64DecodeAscii, sextetToAscii_ne_61, h0, h1, h2, h3,
      htl]
    all_goals omega

/-! ## CryptoUtils (src/medirust/src/crypto.rs)

Each definition mirrors one function of `impl CryptoUtils`, with the
aes_gcm / rsa crate calls factored through the abstract schemes and OsRng
factored into explicit random streams. -/

/-- CryptoUtils::generate_aes_key — fills a 32-byte buffer from OsRng. -/
def generate_aes_key (rng : Nat → Nat) : List Nat :=
  (List.range 32).map rng

/-- CryptoUtils::encrypt_data — rejects a key that is not 32 bytes, draws a
fresh 12-byte nonce from OsRng, encrypts, and returns (ciphertext, nonce).
Cipher construction cannot fail after the length check (new_from_slice only
errors on a wrong-length key), and the crate's in-memory GCM encrypt is
infallible, so no other error case exists. -/
def encrypt_data (A : AeadScheme) (rng : Nat → Nat) (data key : List Nat) :
    Except CryptoError (List Nat × List Nat) :=
  if key.length ≠ 32 then .error .invalidAesKeySize
  else
    let nonce_bytes := (List.range 12).map rng
    .ok (A.enc key nonce_bytes data, nonce_bytes)

/-- CryptoUtils::decrypt_data — rejects a key that is not 32 bytes, then a
nonce that is not 12 bytes, then decrypts; a GCM tag-verification failure
(the crate's decrypt error) becomes the "Failed to decrypt data" error. -/
def decrypt_data (A : AeadScheme) (ciphertext key nonce_bytes : List Nat) :
    Except CryptoError (List Nat) :=
  if key.length ≠ 32 then .error .invalidAesKeySize
  else if nonce_bytes.length ≠ 12 then .error .invalidNonceSize
  else
    match A.dec key nonce_bytes ciphertext with
    | some plaintext => .ok plaintext
    | none => .error .aesDecryptFailure

/-- CryptoUtils::generate_rsa_key_pair — draws a fresh 2048-bit pair from the
scheme's key generator (the crate's rare entropy failure is not modelled). -/
def generate_rsa_key_pair {Pub Priv : Type} (R : RsaScheme Pub Priv)
    (rng : Nat → Nat) : Priv × Pub :=
  R.keygen rng

/-- CryptoUtils::encrypt_aes_key_with_rsa — PKCS1v15-encrypts the AES key
under the public key; a crate failure becomes the wrap error. -/
def encrypt_aes_key_with_rsa {Pub Priv : Type} (R : RsaScheme Pub Priv)
    (rng : Nat → Nat) (aes_key : List Nat) (public_key : Pub) :
    Except CryptoError (List Nat) :=
  match R.wrap rng public_key aes_key with
  | some w => .ok w
  | none => .error .rsaWrapFailure

/-- CryptoUtils::decrypt_aes_key_with_rsa — PKCS1v15-decrypts the wrapped
key; note that no length check is performed on the recovered bytes. -/
def decrypt_aes_key_with_rsa {Pub Priv : Type} (R : RsaScheme Pub Priv)
    (encrypted_aes_key : List Nat) (private_key : Priv) :
    Except CryptoError (List Nat) :=
  match R.unwrap private_key encrypted_aes_key with
  | some k => .ok k
  | none => .error .rsaUnwrapFailure

/-- CryptoUtils::encode_base64 — infallible STANDARD base64 encoding. -/
def encode_base64 (data : List Nat) : List Nat :=
  b64EncodeBytes data

/-- CryptoUtils::decode_base64 — STANDARD base64 decoding, crate error
mapped to the base64 decode failure. -/
def decode_base64 (data : List Nat) : Except CryptoError (List Nat) :=
  match b64DecodeAscii data with
  | some bs => .ok bs
  | none => .error .base64DecodeFailure

/-- CryptoUtils::export_public_key_to_pem — crate error mapped to the PEM
export failure. -/
def export_public_key_to_pem {Pub Priv : Type} (R : RsaScheme Pub Priv)
    (public_key : Pub) : Except CryptoError (List Nat) :=
  match R.exportPubPem public_key with
  | some s => .ok s
  | none => .error .pemExportFailure

/-- CryptoUtils::import_public_key_from_pem. -/
def import_public_key_from_pem {Pub Priv : Type} (R : RsaScheme Pub Priv)
    (pem : List Nat) : Except CryptoError Pub :=
  match R.importPubPem pem with
  | some k => .ok k
  | none => .error .pemImportFailure

/-- CryptoUtils::export_private_key_to_pem. -/
def export_private_key_to_pem {Pub Priv : Type} (R : RsaScheme Pub Priv)
    (private_key : Priv) : Except CryptoError (List Nat) :=
  match R.exportPrivPem private_key with
  | some s => .ok s
  | none => .error .pemExportFailure

/-- CryptoUtils::import_private_key_from_pem. -/
def import_private_key_from_pem {Pub Priv : Type} (R : RsaScheme Pub Priv)
    (pem : List Nat) : Except CryptoError Priv :=
  match R.importPrivPem pem with
  | some k => .ok k
  | none => .error .pemImportFailure

/-! ## Record envelope orchestration (src/medirust/src/handlers.rs)

`sealEnvelope`/`openEnvelope` are the pure seal/open transforms (the crypto
steps of create_health_record and the decrypt steps shared by both record
handlers, with the private key an explicit input). `seal` additionally
threads the IPFS collaborator state exactly where create_health_record
uploads it (between symmetric encryption and key wrapping), and
`openRecordRendered` reproduces get_health_record_by_id including its
placeholder key generation and UTF-8 rendering of the plaintext. -/

/-- The triple stored per record: IPFS CID plus base64 wrapped key and
base64 nonce (lines 126-131 of handlers.rs). -/
structure SealedRecord where
  ipfsCid : List Nat
  encryptedAesKey : List Nat
  nonce : List Nat
  deriving DecidableEq, Repr

/-- Pure seal transform: generate a fresh AES key, encrypt the content,
wrap the key under the recipient public key, and base64-package; returns
(ciphertext, wrapped key base64, nonce base64). -/
def sealEnvelope {Pub Priv : Type} (A : AeadScheme) (R : RsaScheme Pub Priv)
    (rngKey rngNonce rngWrap : Nat → Nat) (content : List Nat) (pub : Pub) :
    Except CryptoError (List Nat × List Nat × List Nat) :=
  let aes_key := generate_aes_key rngKey
  match encrypt_data A rngNonce content aes_key with
  | .error e => .error e
  | .ok (ciphertext, nonce) =>
    match encrypt_aes_key_with_rsa R rngWrap aes_key pub with
    | .error e => .error e
    | .ok wrapped => .ok (ciphertext, encode_base64 wrapped, encode_base64 nonce)

/-- Pure open transform (decrypt steps of handlers.rs lines 303-323 with the
private key as an explicit input): decode the base64 wrapped key, decode the
base64 nonce, RSA-unwrap the AES key, then AES-decrypt the ciphertext. -/
def openEnvelope {Pub Priv : Type} (A : AeadScheme) (R : RsaScheme Pub Priv)
    (ciphertext wrappedB64 nonceB64 : List Nat) (priv : Priv) :
    Except CryptoError (List Nat) :=
  match decode_base64 wrappedB64 with
  | .error e => .error e
  | .ok wrapped =>
    match decode_base64 nonceB64 with
    | .error e => .error e
    | .ok nonce =>
      match decrypt_aes_key_with_rsa R wrapped priv with
      | .error e => .error e
      | .ok aes_key => decrypt_data A ciphertext aes_key nonce

/-- create_health_record, crypto core (handlers.rs lines 107-131), with the
IPFS collaborator as explicit state: encrypt, then upload the ciphertext to
IPFS, then wrap the AES key, then package the stored triple. Each failing
step returns early with its own error; note the upload happens before the
wrap step. -/
def sealRecord {Pub Priv σ : Type} (A : AeadScheme) (R : RsaScheme Pub Priv)
    (put : σ → List Nat → σ × Except CryptoError (List Nat)) (st : σ)
    (rngKey rngNonce rngWrap : Nat → Nat) (content : List Nat) (pub : Pub) :
    σ × Except CryptoError SealedRecord :=
  let aes_key := generate_aes_key rngKey
  match encrypt_data A rngNonce content aes_key with
  | .error e => (st, .error e)
  | .ok (encrypted_content, nonce) =>
    match put st encrypted_content with
    | (st', .error e) => (st', .error e)
    | (st', .ok cid) =>
      match encrypt_aes_key_with_rsa R rngWrap aes_key pub with
      | .error e => (st', .error e)
      | .ok wrapped =>
          (st', .ok ⟨cid, encode_base64 wrapped, encode_base64 nonce⟩)

/-- Validity of a byte sequence as UTF-8 per RFC 3629, as checked by Rust's
String::from_utf8 in handlers.rs. -/
def isValidUtf8 : List Nat → Bool
  | [] => true
  | b0 :: rest =>
    if b0 ≤ 0x7F then isValidUtf8 rest
    else
      match rest with
      | [] => false
      | b1 :: rest1 =>
        if 0xC2 ≤ b0 ∧ b0 ≤ 0xDF then
          (0x80 ≤ b1 && b1 ≤ 0xBF) && isValidUtf8 rest1
        else
          match rest1 with
          | [] => false
          | b2 :: rest2 =>
            if 0xE0 ≤ b0 ∧ b0 ≤ 0xEF then
              (if b0 = 0xE0 then 0xA0 ≤ b1 && b1 ≤ 0xBF
               else if b0 = 0xED then 0x80 ≤ b1 && b1 ≤ 0x9F
               else 0x80 ≤ b1 && b1 ≤ 0xBF) &&
              (0x80 ≤ b2 && b2 ≤ 0xBF) && isValidUtf8 rest2
            else
              match rest2 with
              | [] => false
              | b3 :: rest3 =>
                if 0xF0 ≤ b0 ∧ b0 ≤ 0xF4 then
                  (if b0 = 0xF0 then 0x90 ≤ b1 && b1 ≤ 0xBF
                   else if b0 = 0xF4 then 0x80 ≤ b1 && b1 ≤ 0x8F
                   else 0x80 ≤ b1 && b1 ≤ 0xBF) &&
                  (0x80 ≤ b2 && b2 ≤ 0xBF) &&
                  (0x80 ≤ b3 && b3 ≤ 0xBF) && isValidUtf8 rest3
                else false

/-- The substitute text produced by handlers.rs when decrypted bytes are not
valid UTF-8, as its byte sequence. -/
def utf8ErrorText : List Nat :=
  "Could not decode UTF-8".toList.map Char.toNat

/-- Rendering of decrypted content in handlers.rs lines 325-326: valid UTF-8
bytes are kept as the response text, invalid bytes are silently replaced by
the substitute text via unwrap_or_else. -/
def renderContent (bytes : List Nat) : List Nat :=
  if isValidUtf8 bytes then bytes else utf8ErrorText

/-- get_health_record_by_id, crypto core (handlers.rs lines 291-326): a
fresh, unrelated key pair is generated at decrypt time (the code's explicit
placeholder); the ciphertext is fetched from IPFS; then base64 decoding,
RSA unwrap with the freshly generated private key, AES decryption, and
UTF-8 rendering with the substitute text on conversion failure. -/
def openRecordRendered {Pub Priv : Type} (A : AeadScheme) (R : RsaScheme Pub Priv)
    (get : List Nat → Except CryptoError (List Nat)) (rngKeygen : Nat → Nat)
    (record : SealedRecord) : Except CryptoError (List Nat) :=
  let private_key := (generate_rsa_key_pair R rngKeygen).1
  match get record.ipfsCid with
  | .error e => .error e
  | .ok encrypted_content =>
    match decode_base64 record.encryptedAesKey with
    | .error e => .error e
    | .ok wrapped =>
      match decode_base64 record.nonce with
      | .error e => .error e
      | .ok nonce =>
        match decrypt_aes_key_with_rsa R wrapped private_key with
        | .error e => .error e
        | .ok aes_key =>
          match decrypt_data A encrypted_content aes_key nonce with
          | .error e => .error e
          | .ok plaintext => .ok (renderContent plaintext)

/-! ## Concrete witness instances

A perfectly authenticating toy AEAD (ciphertext is the key, nonce and
plaintext, duplicated, so any single-byte change breaks the duplication)
and a toy two-key asymmetric scheme over Bool. These only serve to show
the crate contracts are satisfiable; the claims are proved for every
scheme meeting the contracts. -/

theorem xor_two_pow_ne (b j : Nat) : Nat.xor b (2 ^ j) ≠ b := by
  show b ^^^ 2 ^ j ≠ b
  intro h
  have h2 : b ^^^ (b ^^^ 2 ^ j) = b ^^^ b := by rw [h]
  rw [← Nat.xor_assoc, Nat.xor_self, Nat.zero_xor] at h2
  have hp : 0 < 2 ^ j := by positivity
  omega

theorem flipBit_length (i j : Nat) (l : List Nat) :
    (flipBit i j l).length = l.length := by
  induction l generalizing i with
  | nil => simp [flipBit]
  | cons b bs ih =>
    cases i with
    | zero => simp [flipBit]
    | succ i' => simp [flipBit, ih]

theorem flipBit_ne (i j : Nat) (l : List Nat) (hi : i < l.length) :
    flipBit i j l ≠ l := by
  induction l generalizing i with
  | nil => simp at hi
  | cons b bs ih =>
    cases i with
    | zero =>
      simp only [flipBit]
      intro h
      exact xor_two_pow_ne b j (List.head_eq_of_cons_eq h)
    | succ i' =>
      simp only [flipBit]
      intro h
      exact ih i' (by simpa using hi) (List.tail_eq_of_cons_eq h)

theorem flipBit_append_left (i j : Nat) (l₁ l₂ : List Nat) (hi : i < l₁.length) :
    flipBit i j (l₁ ++ l₂) = flipBit i j l₁ ++ l₂ := by
  induction l₁ generalizing i with
  | nil => simp at hi
  | cons b bs ih =>
    cases i with
    | zero => rfl
    | succ i' => simp [flipBit, ih i' (by simpa using hi)]

theorem flipBit_append_right (i j : Nat) (l₁ l₂ : List Nat) (hi : l₁.length ≤ i) :
    flipBit i j (l₁ ++ l₂) = l₁ ++ flipBit (i - l₁.length) j l₂ := by
  induction l₁ generalizing i with
  | nil => simp
  | cons b bs ih =>
    cases i with
    | zero => simp at hi
    | succ i' => simp [flipBit, ih i' (by simpa using hi)]

/-- Toy AEAD encryption: key, nonce and plaintext concatenated, duplicated. -/
def mEnc (k n p : List Nat) : List Nat :=
  (k ++ n ++ p) ++ (k ++ n ++ p)

/-- Toy AEAD decryption: both halves must agree and carry the key and nonce
as a prefix; the remainder of a half is the plaintext. -/
def mDec (k n c : List Nat) : Option (List Nat) :=
  if c.take (c.length / 2) = c.drop (c.length / 2) ∧
      (c.take (c.length / 2)).take (k.length + n.length) = k ++ n then
    some ((c.take (c.length / 2)).drop (k.length + n.length))
  else none

def mockAead : AeadScheme := { enc := mEnc, dec := mDec }

theorem mDec_mEnc (k n p : List Nat) : mDec k n (mEnc k n p) = some p := by
  unfold mEnc mDec
  have hm : ((k ++ n ++ p) ++ (k ++ n ++ p)).length / 2 = (k ++ n ++ p).length := by
    simp [List.length_append]
    omega
  rw [hm, List.take_left, List.drop_left]
  have hpre : (k ++ n ++ p).take (k.length + n.length) = k ++ n :=
    List.take_left' (by simp)
  rw [if_pos ⟨rfl, hpre⟩]
  rw [List.drop_left' (show (k ++ n).length = k.length + n.length by simp)]

theorem mDec_auth (k n c p : List Nat) (h : mDec k n c = some p) :
    mEnc k n p = c := by
  unfold mDec at h
  split at h
  case isFalse => exact absurd h (by simp)
  case isTrue hc =>
    obtain ⟨h1, h2⟩ := hc
    have hp : p = (c.take (c.length / 2)).drop (k.length + n.length) := by
      injection h with h
      exact h.symm
    have htk : c.take (c.length / 2) =
        (k ++ n) ++ (c.take (c.length / 2)).drop (k.length + n.length) := by
      conv_lhs =>
        rw [← List.take_append_drop (k.length + n.length) (c.take (c.length / 2))]
      rw [h2]
    have hc2 : c = c.take (c.length / 2) ++ c.take (c.length / 2) := by
      conv_lhs => rw [← List.take_append_drop (c.length / 2) c]
      rw [h1]
    have hkey : k ++ n ++ p = c.take (c.length / 2) := by
      rw [hp, List.append_assoc]
      rw [← List.append_assoc]
      exact htk.symm
    unfold mEnc
    rw [hkey]
    exact hc2.symm

theorem mDec_tamper (k n p : List Nat) (i j : Nat)
    (hi : i < (mEnc k n p).length) :
    mDec k n (flipBit i j (mEnc k n p)) = none := by
  unfold mEnc at hi ⊢
  unfold mDec
  have hfl : (flipBit i j ((k ++ n ++ p) ++ (k ++ n ++ p))).length =
      (k ++ n ++ p).length + (k ++ n ++ p).length := by
    rw [flipBit_length]
    simp [List.length_append]
    omega
  have hm : (flipBit i j ((k ++ n ++ p) ++ (k ++ n ++ p))).length / 2 =
      (k ++ n ++ p).length := by
    rw [hfl]
    omega
  rw [hm, if_neg]
  rintro ⟨h1, -⟩
  by_cases hcase : i < (k ++ n ++ p).length
  · rw [flipBit_append_left i j _ _ hcase] at h1
    rw [List.take_left' (by rw [flipBit_length]),
      List.drop_left' (by rw [flipBit_length])] at h1
    exact flipBit_ne i j _ hcase h1
  · push_neg at hcase
    rw [flipBit_append_right i j _ _ hcase] at h1
    rw [List.take_left, List.drop_left] at h1
    have hlt : i - (k ++ n ++ p).length < (k ++ n ++ p).length := by
      simp only [List.length_append] at hi ⊢
      omega
    exact flipBit_ne _ j _ hlt h1.symm

theorem mockAead_contract : AeadContract mockAead :=
  ⟨fun k n p _ _ => mDec_mEnc k n p, mDec_auth, mDec_tamper⟩

/-- Toy two-key asymmetric scheme: the key space is Bool, wrapping prepends
the key's bit, PEM text is the digit of the bit. -/
def mockRsa : RsaScheme Bool Bool where
  keygen := fun rng => (decide (rng 0 % 2 = 1), decide (rng 0 % 2 = 1))
  pairOf := id
  wrap := fun _ pub p => some ((if pub then 1 else 0) :: p)
  unwrap := fun priv c =>
    match c with
    | [] => none
    | b :: rest => if b = (if priv then 1 else 0) then some rest else none
  exportPubPem := fun pub => some [if pub then 49 else 48]
  importPubPem := fun s =>
    if s = [49] then some true else if s = [48] then some false else none
  exportPrivPem := fun priv => some [if priv then 49 else 48]
  importPrivPem := fun s =>
    if s = [49] then some true else if s = [48] then some false else none

theorem mockRsa_contract : RsaContract mockRsa := by
  constructor
  · intro rng
    rfl
  · intro rng pub p _
    rfl
  · intro rng priv p w _ hw
    simp only [mockRsa] at hw ⊢
    injection hw with hw
    subst hw
    cases priv <;> simp
  · intro rng pub p w hp hw
    simp only [mockRsa] at hw
    injection hw with hw
    subst hw
    intro b hb
    rcases List.mem_cons.mp hb with rfl | hb
    · split_ifs <;> omega
    · exact hp b hb
  · intro rng priv pub p w hne hw
    simp only [mockRsa, id] at hne hw ⊢
    injection hw with hw
    subst hw
    cases priv <;> cases pub <;> simp_all
  · intro pub s hs
    simp only [mockRsa] at hs ⊢
    injection hs with hs
    subst hs
    cases pub <;> simp
  · intro priv s hs
    simp only [mockRsa] at hs ⊢
    injection hs with hs
    subst hs
    cases priv <;> simp

/-! ## Claims -/

/-- Claim C4, as stated, is false: the key-size check runs before the
nonce-size check, so when both are wrong the error is the key-size error,
not the nonce-size error — refuting "fails with an invalid-nonce-size error
exactly when the nonce length is not 12". Concretely, with an empty key and
an empty nonce the nonce length is not 12 yet decrypt_data returns the
invalid-key-size error. -/
theorem c4_counterexample :
    ([] : List Nat).length ≠ 12 ∧
    decrypt_data mockAead [] [] [] = .error .invalidAesKeySize ∧
    decrypt_data mockAead [] [] [] ≠ .error .invalidNonceSize := by
  refine ⟨by simp, by rfl, ?_⟩
  intro h
  simp [decrypt_data] at h

/-- Claim C4 (amended): decrypt_data fails with the invalid-key-size error
exactly when the key length is not 32; with the invalid-nonce-size error
exactly when the key length is 32 and the nonce length is not 12; with the
authentication failure exactly when both lengths are right and the GCM tag
does not verify; and it returns a plaintext only when both lengths are right
and the tag verifies — never garbage on a failure. -/
theorem c4_decrypt_error_characterization (A : AeadScheme)
    (ct key nonce : List Nat) :
    (decrypt_data A ct key nonce = .error .invalidAesKeySize ↔
      key.length ≠ 32) ∧
    (decrypt_data A ct key nonce = .error .invalidNonceSize ↔
      key.length = 32 ∧ nonce.length ≠ 12) ∧
    (decrypt_data A ct key nonce = .error .aesDecryptFailure ↔
      key.length = 32 ∧ nonce.length = 12 ∧ A.dec key nonce ct = none) ∧
    (∀ p, decrypt_data A ct key nonce = .ok p ↔
      key.length = 32 ∧ nonce.length = 12 ∧ A.dec key nonce ct = some p) := by
  unfold decrypt_data
  by_cases h1 : key.length = 32 <;> by_cases h2 : nonce.length = 12 <;>
    cases hd : A.dec key nonce ct <;> simp [h1, h2, hd]

/-- Witness for C4's amended theorem: a 32-byte key with an empty nonce
yields the invalid-nonce-size error. -/
theorem c4_witness :
    decrypt_data mockAead [] (generate_aes_key (fun _ => 5)) [] =
      .error .invalidNonceSize :=
  (c4_decrypt_error_characterization mockAead []
    (generate_aes_key (fun _ => 5)) []).2.1.mpr ⟨by decide, by decide⟩

/-- Claim C5: encrypt_data fails (with the invalid-key-size error) exactly
when the key is not 32 bytes; otherwise it succeeds and returns the
ciphertext together with exactly the 12 nonce bytes it drew from the RNG
stream for this call. -/
theorem c5_encrypt_characterization (A : AeadScheme) (rng : Nat → Nat)
    (data key : List Nat) :
    (key.length ≠ 32 → encrypt_data A rng data key = .error .invalidAesKeySize) ∧
    (key.length = 32 →
      encrypt_data A rng data key =
        .ok (A.enc key ((List.range 12).map rng) data, (List.range 12).map rng) ∧
      ((List.range 12).map rng).length = 12) := by
  constructor
  · intro h
    unfold encrypt_data
    rw [if_pos h]
  · intro h
    unfold encrypt_data
    rw [if_neg (by omega)]
    exact ⟨rfl, by simp⟩

/-- Witness for C5: a 31-byte key is rejected; a generated 32-byte key
yields the ciphertext with exactly the drawn nonce. -/
theorem c5_witness :
    encrypt_data mockAead (fun _ => 7) [1, 2, 3] ((List.range 31).map (fun _ => 5)) =
      .error .invalidAesKeySize ∧
    encrypt_data mockAead (fun _ => 7) [1, 2, 3] (generate_aes_key (fun _ => 5)) =
      .ok (mockAead.enc (generate_aes_key (fun _ => 5))
        ((List.range 12).map (fun _ => 7)) [1, 2, 3],
        (List.range 12).map (fun _ => 7)) :=
  ⟨(c5_encrypt_characterization mockAead (fun _ => 7) [1, 2, 3]
      ((List.range 31).map (fun _ => 5))).1 (by decide),
   ((c5_encrypt_characterization mockAead (fun _ => 7) [1, 2, 3]
      (generate_aes_key (fun _ => 5))).2 (by decide)).1⟩

/-- Claim C9: for any scheme meeting the pkcs1 crate contract, importing an
exported PEM returns the original key, for public and for private keys. -/
theorem c9_pem_roundtrip {Pub Priv : Type} (R : RsaScheme Pub Priv)
    (hR : RsaContract R) (pub : Pub) (priv : Priv) :
    (∀ s, export_public_key_to_pem R pub = .ok s →
      import_public_key_from_pem R s = .ok pub) ∧
    (∀ s, export_private_key_to_pem R priv = .ok s →
      import_private_key_from_pem R s = .ok priv) := by
  constructor
  · intro s hs
    unfold export_public_key_to_pem at hs
    unfold import_public_key_from_pem
    cases hex : R.exportPubPem pub with
    | none => rw [hex] at hs; exact absurd hs (by simp)
    | some s2 =>
      rw [hex] at hs
      have h2 : s2 = s := by injection hs
      rw [← h2, hR.pem_pub pub s2 hex]
  · intro s hs
    unfold export_private_key_to_pem at hs
    unfold import_private_key_from_pem
    cases hex : R.exportPrivPem priv with
    | none => rw [hex] at hs; exact absurd hs (by simp)
    | some s2 =>
      rw [hex] at hs
      have h2 : s2 = s := by injection hs
      rw [← h2, hR.pem_priv priv s2 hex]

/-- Witness for C9 at the toy scheme: both PEM round-trips at key true. -/
theorem c9_witness :
    import_public_key_from_pem mockRsa [49] = .ok true ∧
    import_private_key_from_pem mockRsa [49] = .ok true :=
  ⟨(c9_pem_roundtrip mockRsa mockRsa_contract true true).1 [49] (by rfl),
   (c9_pem_roundtrip mockRsa mockRsa_contract true true).2 [49] (by rfl)⟩

/-- Claim C10: decrypt_aes_key_with_rsa performs no length validation — for
any wrapped payload within capacity, unwrap under the matching private key
returns the original bytes whatever their length, and a wrong-sized key is
rejected only later, by decrypt_data's key-size check. -/
theorem c10_unwrap_no_length_check {Pub Priv : Type} (A : AeadScheme)
    (R : RsaScheme Pub Priv) (hR : RsaContract R) (rngWrap : Nat → Nat)
    (priv : Priv) (p w : List Nat) (hlen : p.length ≤ 245)
    (hw : R.wrap rngWrap (R.pairOf priv) p = some w) :
    decrypt_aes_key_with_rsa R w priv = .ok p ∧
    (p.length ≠ 32 → ∀ ct nonce, decrypt_data A ct p nonce =
      .error .invalidAesKeySize) := by
  constructor
  · unfold decrypt_aes_key_with_rsa
    rw [hR.unwrap_wrap rngWrap priv p w hlen hw]
  · intro hne ct nonce
    unfold decrypt_data
    rw [if_pos hne]

/-- Witness for C10: a 1-byte payload survives wrap/unwrap unchanged and is
then rejected by decrypt_data's key-size check. -/
theorem c10_witness :
    decrypt_aes_key_with_rsa mockRsa [1, 7] true = .ok [7] ∧
    decrypt_data mockAead [9] [7] [3] = .error .invalidAesKeySize :=
  ⟨(c10_unwrap_no_length_check mockAead mockRsa mockRsa_contract (fun _ => 9)
      true [7] [1, 7] (by decide) (by rfl)).1,
   (c10_unwrap_no_length_check mockAead mockRsa mockRsa_contract (fun _ => 9)
      true [7] [1, 7] (by decide) (by rfl)).2 (by decide) [9] [3]⟩

/-- Claim C1: the full envelope round-trip — generate a 32-byte key, encrypt
the plaintext, wrap the key under the recipient public key, base64-encode
the wrapped key and nonce, then decode both, unwrap with the matching
private key, and decrypt — returns exactly the plaintext, for every
plaintext (including the empty one), for any schemes meeting the crate
contracts and any RNG byte streams. -/
theorem c1_envelope_roundtrip {Pub Priv : Type} (A : AeadScheme)
    (R : RsaScheme Pub Priv) (hA : AeadContract A) (hR : RsaContract R)
    (rngKey rngNonce rngWrap : Nat → Nat)
    (hkey : ∀ m, rngKey m < 256) (hnonce : ∀ m, rngNonce m < 256)
    (P : List Nat) (priv : Priv) (ct wb nb : List Nat)
    (hseal : sealEnvelope A R rngKey rngNonce rngWrap P (R.pairOf priv) =
      .ok (ct, wb, nb)) :
    openEnvelope A R ct wb nb priv = .ok P := by
  have klen : (generate_aes_key rngKey).length = 32 := by simp [generate_aes_key]
  have kbytes : ∀ b ∈ generate_aes_key rngKey, b < 256 := by
    intro b hb
    simp [generate_aes_key] at hb
    obtain ⟨m, -, rfl⟩ := hb
    exact hkey m
  have nbytes : ∀ b ∈ (List.range 12).map rngNonce, b < 256 := by
    intro b hb
    simp at hb
    obtain ⟨m, -, rfl⟩ := hb
    exact hnonce m
  cases hw : R.wrap rngWrap (R.pairOf priv) (generate_aes_key rngKey) with
  | none =>
    unfold sealEnvelope at hseal
    simp [encrypt_data, encrypt_aes_key_with_rsa, klen, hw] at hseal
  | some w =>
    unfold sealEnvelope at hseal
    simp [encrypt_data, encrypt_aes_key_with_rsa, klen, hw] at hseal
    obtain ⟨hct, hwb, hnb⟩ := hseal
    subst hct hwb hnb
    have wbytes : ∀ b ∈ w, b < 256 :=
      hR.wrap_bytes_lt rngWrap (R.pairOf priv) (generate_aes_key rngKey) w
        kbytes hw
    unfold openEnvelope decode_base64 encode_base64
    rw [b64_roundtrip w wbytes, b64_roundtrip _ nbytes]
    unfold decrypt_aes_key_with_rsa
    simp only [hR.unwrap_wrap rngWrap priv (generate_aes_key rngKey) w
      (by omega) hw]
    unfold decrypt_data
    rw [if_neg (by omega), if_neg (by simp)]
    simp only [hA.roundtrip (generate_aes_key rngKey)
      ((List.range 12).map rngNonce) P klen (by simp)]

/-- Witness for C1 at the toy schemes, for a non-empty and for the empty
plaintext. -/
theorem c1_witness :
    openEnvelope mockAead mockRsa
      (mEnc (generate_aes_key (fun _ => 5)) ((List.range 12).map (fun _ => 7)) [1, 2])
      (encode_base64 (1 :: generate_aes_key (fun _ => 5)))
      (encode_base64 ((List.range 12).map (fun _ => 7))) true = .ok [1, 2] ∧
    openEnvelope mockAead mockRsa
      (mEnc (generate_aes_key (fun _ => 5)) ((List.range 12).map (fun _ => 7)) [])
      (encode_base64 (1 :: generate_aes_key (fun _ => 5)))
      (encode_base64 ((List.range 12).map (fun _ => 7))) true = .ok [] :=
  ⟨c1_envelope_roundtrip mockAead mockRsa mockAead_contract mockRsa_contract
      (fun _ => 5) (fun _ => 7) (fun _ => 9) (fun m => by norm_num) (fun m => by norm_num)
      [1, 2] true _ _ _ (by rfl),
   c1_envelope_roundtrip mockAead mockRsa mockAead_contract mockRsa_contract
      (fun _ => 5) (fun _ => 7) (fun _ => 9) (fun m => by norm_num) (fun m => by norm_num)
      [] true _ _ _ (by rfl)⟩

/-- Claim C2: flipping any single bit of a sealed ciphertext makes open fail
with the authentication failure at the decrypt step; it never returns
(altered) plaintext. -/
theorem c2_tamper_detection {Pub Priv : Type} (A : AeadScheme)
    (R : RsaScheme Pub Priv) (hA : AeadContract A) (hR : RsaContract R)
    (rngKey rngNonce rngWrap : Nat → Nat)
    (hkey : ∀ m, rngKey m < 256) (hnonce : ∀ m, rngNonce m < 256)
    (P : List Nat) (priv : Priv) (ct wb nb : List Nat)
    (hseal : sealEnvelope A R rngKey rngNonce rngWrap P (R.pairOf priv) =
      .ok (ct, wb, nb))
    (i j : Nat) (hi : i < ct.length) :
    openEnvelope A R (flipBit i j ct) wb nb priv =
      .error .aesDecryptFailure ∧
    ∀ q, openEnvelope A R (flipBit i j ct) wb nb priv ≠ .ok q := by
  have klen : (generate_aes_key rngKey).length = 32 := by simp [generate_aes_key]
  have kbytes : ∀ b ∈ generate_aes_key rngKey, b < 256 := by
    intro b hb
    simp [generate_aes_key] at hb
    obtain ⟨m, -, rfl⟩ := hb
    exact hkey m
  have nbytes : ∀ b ∈ (List.range 12).map rngNonce, b < 256 := by
    intro b hb
    simp at hb
    obtain ⟨m, -, rfl⟩ := hb
    exact hnonce m
  cases hw : R.wrap rngWrap (R.pairOf priv) (generate_aes_key rngKey) with
  | none =>
    unfold sealEnvelope at hseal
    simp [encrypt_data, encrypt_aes_key_with_rsa, klen, hw] at hseal
  | some w =>
    unfold sealEnvelope at hseal
    simp [encrypt_data, encrypt_aes_key_with_rsa, klen, hw] at hseal
    obtain ⟨hct, hwb, hnb⟩ := hseal
    subst hwb hnb
    have wbytes : ∀ b ∈ w, b < 256 :=
      hR.wrap_bytes_lt rngWrap (R.pairOf priv) (generate_aes_key rngKey) w
        kbytes hw
    have hmain : openEnvelope A R (flipBit i j ct) (encode_base64 w)
        (encode_base64 ((List.range 12).map rngNonce)) priv =
        .error .aesDecryptFailure := by
      unfold openEnvelope decode_base64 encode_base64
      rw [b64_roundtrip w wbytes, b64_roundtrip _ nbytes]
      unfold decrypt_aes_key_with_rsa
      simp only [hR.unwrap_wrap rngWrap priv (generate_aes_key rngKey) w
        (by omega) hw]
      unfold decrypt_data
      rw [if_neg (by omega), if_neg (by simp)]
      subst hct
      simp only [hA.tamper (generate_aes_key rngKey)
        ((List.range 12).map rngNonce) P i j hi]
    refine ⟨hmain, ?_⟩
    intro q hq
    rw [hmain] at hq
    exact absurd hq (by simp)

/-- Witness for C2 at the toy schemes: flipping bit 0 of byte 0 of a sealed
ciphertext is rejected with the authentication failure. -/
theorem c2_witness :
    openEnvelope mockAead mockRsa
      (flipBit 0 0 (mEnc (generate_aes_key (fun _ => 5))
        ((List.range 12).map (fun _ => 7)) [1, 2]))
      (encode_base64 (1 :: generate_aes_key (fun _ => 5)))
      (encode_base64 ((List.range 12).map (fun _ => 7))) true =
      .error .aesDecryptFailure :=
  (c2_tamper_detection mockAead mockRsa mockAead_contract mockRsa_contract
    (fun _ => 5) (fun _ => 7) (fun _ => 9) (fun m => by norm_num)
    (fun m => by norm_num) [1, 2] true _ _ _ (by rfl) 0 0 (by decide)).1

/-- Claim C3: a record sealed under public key A cannot be opened with a
private key from a different pair: open fails with the unwrap failure at
the RSA decryption step and never returns the plaintext. -/
theorem c3_wrong_key_rejection {Pub Priv : Type} (A : AeadScheme)
    (R : RsaScheme Pub Priv) (hR : RsaContract R)
    (rngKey rngNonce rngWrap : Nat → Nat)
    (hkey : ∀ m, rngKey m < 256) (hnonce : ∀ m, rngNonce m < 256)
    (P : List Nat) (pub : Pub) (privB : Priv) (hne : R.pairOf privB ≠ pub)
    (ct wb nb : List Nat)
    (hseal : sealEnvelope A R rngKey rngNonce rngWrap P pub = .ok (ct, wb, nb)) :
    openEnvelope A R ct wb nb privB = .error .rsaUnwrapFailure ∧
    ∀ q, openEnvelope A R ct wb nb privB ≠ .ok q := by
  have klen : (generate_aes_key rngKey).length = 32 := by simp [generate_aes_key]
  have kbytes : ∀ b ∈ generate_aes_key rngKey, b < 256 := by
    intro b hb
    simp [generate_aes_key] at hb
    obtain ⟨m, -, rfl⟩ := hb
    exact hkey m
  have nbytes : ∀ b ∈ (List.range 12).map rngNonce, b < 256 := by
    intro b hb
    simp at hb
    obtain ⟨m, -, rfl⟩ := hb
    exact hnonce m
  cases hw : R.wrap rngWrap pub (generate_aes_key rngKey) with
  | none =>
    unfold sealEnvelope at hseal
    simp [encrypt_data, encrypt_aes_key_with_rsa, klen, hw] at hseal
  | some w =>
    unfold sealEnvelope at hseal
    simp [encrypt_data, encrypt_aes_key_with_rsa, klen, hw] at hseal
    obtain ⟨hct, hwb, hnb⟩ := hseal
    subst hwb hnb
    have wbytes : ∀ b ∈ w, b < 256 :=
      hR.wrap_bytes_lt rngWrap pub (generate_aes_key rngKey) w kbytes hw
    have hmain : openEnvelope A R ct (encode_base64 w)
        (encode_base64 ((List.range 12).map rngNonce)) privB =
        .error .rsaUnwrapFailure := by
      unfold openEnvelope decode_base64 encode_base64
      rw [b64_roundtrip w wbytes, b64_roundtrip _ nbytes]
      unfold decrypt_aes_key_with_rsa
      simp only [hR.unwrap_wrong rngWrap privB pub (generate_aes_key rngKey) w
        hne hw]
    refine ⟨hmain, ?_⟩
    intro q hq
    rw [hmain] at hq
    exact absurd hq (by simp)

/-- Witness for C3 at the toy schemes: sealing under key true and opening
with the private key of the other pair fails with the unwrap failure. -/
theorem c3_witness :
    openEnvelope mockAead mockRsa
      (mEnc (generate_aes_key (fun _ => 5)) ((List.range 12).map (fun _ => 7)) [1, 2])
      (encode_base64 (1 :: generate_aes_key (fun _ => 5)))
      (encode_base64 ((List.range 12).map (fun _ => 7))) false =
      .error .rsaUnwrapFailure :=
  (c3_wrong_key_rejection mockAead mockRsa mockRsa_contract
    (fun _ => 5) (fun _ => 7) (fun _ => 9) (fun m => by norm_num)
    (fun m => by norm_num) [1, 2] true false (by decide) _ _ _ (by rfl)).1

/-- Claim C7: in the record-retrieval workflow the private key handed to the
RSA unwrap step comes from a fresh key-pair generation at decrypt time
(built into openRecordRendered, mirroring the placeholder in handlers.rs);
whenever that freshly generated pair is not the pair whose public half
sealed the record, retrieval fails at the unwrap step and never recovers
the plaintext. -/
theorem c7_fresh_keypair_decrypt_fails {Pub Priv : Type} (A : AeadScheme)
    (R : RsaScheme Pub Priv) (hR : RsaContract R)
    (rngKey rngNonce rngWrap rngKeygen : Nat → Nat)
    (hkey : ∀ m, rngKey m < 256) (hnonce : ∀ m, rngNonce m < 256)
    (P : List Nat) (pub : Pub)
    (hne : R.pairOf (generate_rsa_key_pair R rngKeygen).1 ≠ pub)
    (ct wb nb cid : List Nat) (get : List Nat → Except CryptoError (List Nat))
    (hseal : sealEnvelope A R rngKey rngNonce rngWrap P pub = .ok (ct, wb, nb))
    (hget : get cid = .ok ct) :
    openRecordRendered A R get rngKeygen ⟨cid, wb, nb⟩ =
      .error .rsaUnwrapFailure ∧
    ∀ q, openRecordRendered A R get rngKeygen ⟨cid, wb, nb⟩ ≠ .ok q := by
  have klen : (generate_aes_key rngKey).length = 32 := by simp [generate_aes_key]
  have kbytes : ∀ b ∈ generate_aes_key rngKey, b < 256 := by
    intro b hb
    simp [generate_aes_key] at hb
    obtain ⟨m, -, rfl⟩ := hb
    exact hkey m
  have nbytes : ∀ b ∈ (List.range 12).map rngNonce, b < 256 := by
    intro b hb
    simp at hb
    obtain ⟨m, -, rfl⟩ := hb
    exact hnonce m
  cases hw : R.wrap rngWrap pub (generate_aes_key rngKey) with
  | none =>
    unfold sealEnvelope at hseal
    simp [encrypt_data, encrypt_aes_key_with_rsa, klen, hw] at hseal
  | some w =>
    unfold sealEnvelope at hseal
    simp [encrypt_data, encrypt_aes_key_with_rsa, klen, hw] at hseal
    obtain ⟨hct, hwb, hnb⟩ := hseal
    subst hwb hnb
    have wbytes : ∀ b ∈ w, b < 256 :=
      hR.wrap_bytes_lt rngWrap pub (generate_aes_key rngKey) w kbytes hw
    have hmain : openRecordRendered A R get rngKeygen
        ⟨cid, encode_base64 w, encode_base64 ((List.range 12).map rngNonce)⟩ =
        .error .rsaUnwrapFailure := by
      unfold openRecordRendered
      rw [hget]
      unfold decode_base64 encode_base64
      rw [b64_roundtrip w wbytes, b64_roundtrip _ nbytes]
      unfold decrypt_aes_key_with_rsa
      simp only [hR.unwrap_wrong rngWrap (generate_rsa_key_pair R rngKeygen).1
        pub (generate_aes_key rngKey) w hne hw]
    refine ⟨hmain, ?_⟩
    intro q hq
    rw [hmain] at hq
    exact absurd hq (by simp)

/-- Witness for C7 at the toy schemes: the fresh pair generated at decrypt
time (from an even RNG draw) differs from the sealing pair, and retrieval
fails with the unwrap failure. -/
theorem c7_witness :
    openRecordRendered mockAead mockRsa
      (fun _ => .ok (mEnc (generate_aes_key (fun _ => 5))
        ((List.range 12).map (fun _ => 7)) [1, 2]))
      (fun _ => 0)
      ⟨[99], encode_base64 (1 :: generate_aes_key (fun _ => 5)),
        encode_base64 ((List.range 12).map (fun _ => 7))⟩ =
      .error .rsaUnwrapFailure :=
  (c7_fresh_keypair_decrypt_fails mockAead mockRsa mockRsa_contract
    (fun _ => 5) (fun _ => 7) (fun _ => 9) (fun _ => 0) (fun m => by norm_num)
    (fun m => by norm_num) [1, 2] true (by decide) _ _ _ [99]
    (fun _ => .ok (mEnc (generate_aes_key (fun _ => 5))
      ((List.range 12).map (fun _ => 7)) [1, 2]))
    (by rfl) (by rfl)).1

/-- Blob-store model that records each uploaded blob, for exhibiting the
externally observable artifact of an aborted seal. -/
def putAppend (st : List (List Nat)) (b : List Nat) :
    List (List Nat) × Except CryptoError (List Nat) :=
  (st ++ [b], .ok [99])

/-- A scheme whose PKCS1v15 wrap step fails, as the rsa crate does for an
oversized payload or a malformed public key. -/
def mockRsaWrapFail : RsaScheme Bool Bool :=
  { mockRsa with wrap := fun _ _ _ => none }

/-- Claim C6, as stated, is false on the code: create_health_record uploads
the ciphertext to IPFS before wrapping the AES key, so when the wrap step
fails the seal aborts with the wrap error yet the uploaded blob remains —
an externally observable artifact of the aborted seal. -/
theorem c6_counterexample :
    (sealRecord mockAead mockRsaWrapFail putAppend [] (fun _ => 5) (fun _ => 7)
      (fun _ => 9) [1, 2] true).2 = .error .rsaWrapFailure ∧
    (sealRecord mockAead mockRsaWrapFail putAppend [] (fun _ => 5) (fun _ => 7)
      (fun _ => 9) [1, 2] true).1 ≠ [] := by
  constructor
  · rfl
  · have hst : (sealRecord mockAead mockRsaWrapFail putAppend [] (fun _ => 5)
        (fun _ => 7) (fun _ => 9) [1, 2] true).1 =
        [mEnc (generate_aes_key (fun _ => 5))
          ((List.range 12).map (fun _ => 7)) [1, 2]] := rfl
    rw [hst]
    simp

/-- Claim C6 (amended): the failure of any step of the seal operation aborts
the whole operation and propagates that step's error unchanged, and no
partial SealedRecord is ever returned — but the encrypted blob may already
have been uploaded to the blob store when a step after the upload fails, so
an external artifact of an aborted seal can remain. -/
theorem c6_seal_error_propagation {Pub Priv σ : Type} (A : AeadScheme)
    (R : RsaScheme Pub Priv)
    (put : σ → List Nat → σ × Except CryptoError (List Nat)) (st : σ)
    (rngKey rngNonce rngWrap : Nat → Nat) (content : List Nat) (pub : Pub) :
    (∀ e, encrypt_data A rngNonce content (generate_aes_key rngKey) = .error e →
      sealRecord A R put st rngKey rngNonce rngWrap content pub =
        (st, .error e)) ∧
    (∀ ct nonce st2 e,
      encrypt_data A rngNonce content (generate_aes_key rngKey) = .ok (ct, nonce) →
      put st ct = (st2, .error e) →
      sealRecord A R put st rngKey rngNonce rngWrap content pub =
        (st2, .error e)) ∧
    (∀ ct nonce st2 cid e,
      encrypt_data A rngNonce content (generate_aes_key rngKey) = .ok (ct, nonce) →
      put st ct = (st2, .ok cid) →
      encrypt_aes_key_with_rsa R rngWrap (generate_aes_key rngKey) pub = .error e →
      sealRecord A R put st rngKey rngNonce rngWrap content pub =
        (st2, .error e)) ∧
    (∀ st2 r, sealRecord A R put st rngKey rngNonce rngWrap content pub =
        (st2, .ok r) →
      ∃ ct nonce cid w,
        encrypt_data A rngNonce content (generate_aes_key rngKey) = .ok (ct, nonce) ∧
        put st ct = (st2, .ok cid) ∧
        R.wrap rngWrap pub (generate_aes_key rngKey) = some w ∧
        r = ⟨cid, encode_base64 w, encode_base64 nonce⟩) := by
  refine ⟨?_, ?_, ?_, ?_⟩
  · intro e he
    simp only [sealRecord, he]
  · intro ct nonce st2 e he hput
    simp only [sealRecord, he, hput]
  · intro ct nonce st2 cid e he hput hwrap
    simp only [sealRecord, he, hput, hwrap]
  · intro st2 r hs
    simp only [sealRecord] at hs
    cases he : encrypt_data A rngNonce content (generate_aes_key rngKey) with
    | error e =>
      simp only [he] at hs
      exact absurd hs (by simp)
    | ok pr =>
      obtain ⟨ct, nonce⟩ := pr
      simp only [he] at hs
      cases hput : put st ct with
      | mk st3 res =>
        simp only [hput] at hs
        cases res with
        | error e => exact absurd hs (by simp)
        | ok cid =>
          cases hwrap : R.wrap rngWrap pub (generate_aes_key rngKey) with
          | none =>
            simp only [encrypt_aes_key_with_rsa, hwrap] at hs
            exact absurd hs (by simp)
          | some w =>
            simp only [encrypt_aes_key_with_rsa, hwrap, Prod.mk.injEq,
              Except.ok.injEq] at hs
            obtain ⟨hst, hr⟩ := hs
            subst hst
            exact ⟨ct, nonce, cid, w, rfl, hput, rfl, hr.symm⟩

/-- Blob-store model whose upload fails, leaving its state unchanged. -/
def putFail (st : List (List Nat)) (_b : List Nat) :
    List (List Nat) × Except CryptoError (List Nat) :=
  (st, .error .ipfsFailure)

/-- Witness for C6's amended theorem: a failing IPFS upload aborts the seal
with exactly the upload error and no record. -/
theorem c6_witness :
    sealRecord mockAead mockRsa putFail [] (fun _ => 5) (fun _ => 7)
      (fun _ => 9) [1, 2] true = ([], .error .ipfsFailure) :=
  (c6_seal_error_propagation mockAead mockRsa putFail [] (fun _ => 5)
    (fun _ => 7) (fun _ => 9) [1, 2] true).2.1
    (mEnc (generate_aes_key (fun _ => 5)) ((List.range 12).map (fun _ => 7)) [1, 2])
    ((List.range 12).map (fun _ => 7)) [] .ipfsFailure (by rfl) (by rfl)

/-- Claim C8, as stated, is false on the code: when decryption succeeds but
the plaintext is not valid UTF-8, handlers.rs converts the conversion
failure into the substitute string "Could not decode UTF-8" inside a
success response (via unwrap_or_else) — a failure swallowed into a success
result carrying substitute content. Here a record whose plaintext is the
single byte 255 is retrieved "successfully" with the substitute text. -/
theorem c8_counterexample :
    openRecordRendered mockAead mockRsa
      (fun _ => .ok (mEnc (generate_aes_key (fun _ => 5))
        ((List.range 12).map (fun _ => 7)) [255]))
      (fun _ => 1)
      ⟨[99], encode_base64 (1 :: generate_aes_key (fun _ => 5)),
        encode_base64 ((List.range 12).map (fun _ => 7))⟩ = .ok utf8ErrorText ∧
    utf8ErrorText ≠ [255] := by
  constructor
  · rfl
  · decide

/-- Claim C8 (amended): every failure of a crypto step of the record
retrieval workflow (IPFS fetch, base64 decoding of the wrapped key, base64
decoding of the nonce, RSA unwrap, AES decrypt) propagates to the caller as
an error identifying that step; however, when decryption itself succeeds,
a UTF-8 conversion failure of the recovered plaintext is not propagated:
the workflow returns success with the rendered content, in which invalid
UTF-8 is replaced by a substitute string. -/
theorem c8_error_propagation {Pub Priv : Type} (A : AeadScheme)
    (R : RsaScheme Pub Priv) (get : List Nat → Except CryptoError (List Nat))
    (rngKeygen : Nat → Nat) (record : SealedRecord) :
    (∀ e, get record.ipfsCid = .error e →
      openRecordRendered A R get rngKeygen record = .error e) ∧
    (∀ ct, get record.ipfsCid = .ok ct →
      b64DecodeAscii record.encryptedAesKey = none →
      openRecordRendered A R get rngKeygen record =
        .error .base64DecodeFailure) ∧
    (∀ ct wrapped, get record.ipfsCid = .ok ct →
      b64DecodeAscii record.encryptedAesKey = some wrapped →
      b64DecodeAscii record.nonce = none →
      openRecordRendered A R get rngKeygen record =
        .error .base64DecodeFailure) ∧
    (∀ ct wrapped nonce, get record.ipfsCid = .ok ct →
      b64DecodeAscii record.encryptedAesKey = some wrapped →
      b64DecodeAscii record.nonce = some nonce →
      R.unwrap (generate_rsa_key_pair R rngKeygen).1 wrapped = none →
      openRecordRendered A R get rngKeygen record =
        .error .rsaUnwrapFailure) ∧
    (∀ ct wrapped nonce aes_key e, get record.ipfsCid = .ok ct →
      b64DecodeAscii record.encryptedAesKey = some wrapped →
      b64DecodeAscii record.nonce = some nonce →
      R.unwrap (generate_rsa_key_pair R rngKeygen).1 wrapped = some aes_key →
      decrypt_data A ct aes_key nonce = .error e →
      openRecordRendered A R get rngKeygen record = .error e) ∧
    (∀ ct wrapped nonce aes_key p, get record.ipfsCid = .ok ct →
      b64DecodeAscii record.encryptedAesKey = some wrapped →
      b64DecodeAscii record.nonce = some nonce →
      R.unwrap (generate_rsa_key_pair R rngKeygen).1 wrapped = some aes_key →
      decrypt_data A ct aes_key nonce = .ok p →
      openRecordRendered A R get rngKeygen record =
        .ok (renderContent p)) := by
  refine ⟨?_, ?_, ?_, ?_, ?_, ?_⟩
  · intro e hget
    simp only [openRecordRendered, hget]
  · intro ct hget hkey
    simp only [openRecordRendered, hget, decode_base64, hkey]
  · intro ct wrapped hget hkey hnonce
    simp only [openRecordRendered, hget, decode_base64, hkey, hnonce]
  · intro ct wrapped nonce hget hkey hnonce hunwrap
    simp only [openRecordRendered, hget, decode_base64, hkey, hnonce,
      decrypt_aes_key_with_rsa, hunwrap]
  · intro ct wrapped nonce aes_key e hget hkey hnonce hunwrap hdec
    simp only [openRecordRendered, hget, decode_base64, hkey, hnonce,
      decrypt_aes_key_with_rsa, hunwrap, hdec]
  · intro ct wrapped nonce aes_key p hget hkey hnonce hunwrap hdec
    simp only [openRecordRendered, hget, decode_base64, hkey, hnonce,
      decrypt_aes_key_with_rsa, hunwrap, hdec]

/-- Witness for C8's amended theorem: a malformed base64 wrapped key is
reported as the base64 decoding failure. -/
theorem c8_witness :
    openRecordRendered mockAead mockRsa (fun _ => .ok [4]) (fun _ => 1)
      ⟨[99], [33], [33]⟩ = .error .base64DecodeFailure :=
  (c8_error_propagation mockAead mockRsa (fun _ => .ok [4]) (fun _ => 1)
    ⟨[99], [33], [33]⟩).2.1 [4] (by rfl) (by rfl)
